import Mathlib

/-!
# Verification of the omim routing core (road graph and routing index generator)

Shallow embedding of `routing/road_graph.hpp` and the routing index generator
(`generator/routing_index_generator.cpp`): junction equality, the cross-edges
loader protocol, the index-graph builder's joint coalescence, the cross-MWM
transition scan, the leap-weight build, and the error-handling shape of the
build entry points.  Coordinates and weights are modelled as rationals.
-/

namespace OmimRouting

/-- Embedding of `m2::PointD`: a planar point with (rational) coordinates. -/
structure PointD where
  x : ℚ
  y : ℚ
deriving DecidableEq, Repr

/-- `routing::kPointsEqualEpsilon = 1e-6` (road_graph.hpp). -/
def kPointsEqualEpsilon : ℚ := 1 / 1000000

/-- Modelled from the spec: `my::AlmostEqualAbs` on points (base/math.hpp and
geometry/point2d.hpp are not under src/); spec §3 "equality uses an absolute
epsilon" — both coordinates must differ by less than `eps`. -/
def almostEqualAbsPoint (a b : PointD) (eps : ℚ) : Bool :=
  decide (|a.x - b.x| < eps) && decide (|a.y - b.y| < eps)

/-- Modelled from the spec: `m2::PointD::operator==` is not under src/; spec §3
Point: "equality uses an absolute epsilon (`POINTS_EQUAL_EPSILON = 1e-6`)". -/
def pointEq (a b : PointD) : Bool :=
  almostEqualAbsPoint a b kPointsEqualEpsilon

/-- `feature::TAltitude`: signed integer metres. -/
abbrev TAltitude := Int

/-- `routing::Junction` (road_graph.hpp): a point plus an altitude. -/
structure Junction where
  point : PointD
  altitude : TAltitude
deriving DecidableEq, Repr

/-- `Junction::operator==` (road_graph.hpp): compares `m_point` only. -/
def junctionEq (a b : Junction) : Bool :=
  pointEq a.point b.point

/-- `routing::AlmostEqualAbs` on junctions (road_graph.hpp): compares the two
points with `kPointsEqualEpsilon`. -/
def junctionAlmostEqualAbs (a b : Junction) : Bool :=
  almostEqualAbsPoint a.point b.point kPointsEqualEpsilon

/-- One callback invocation made by `ICrossEdgesLoader::ForEachEdge`:
the segment index passed, the adjacent junction passed, and the
forward flag. -/
structure EdgeCall where
  index : Nat
  junction : Junction
  forward : Bool
deriving DecidableEq, Repr

/-- Default junction used for out-of-range list reads in the embedding. -/
def defaultJunction : Junction := ⟨⟨0, 0⟩, 0⟩

/-- Read junction `i` of a polyline (total version of `m_junctions[i]`). -/
def jget (js : List Junction) (i : Nat) : Junction :=
  js.getD i defaultJunction

/-- Embedding of `ICrossEdgesLoader::ForEachEdge` (road_graph.hpp): scan the
polyline; at every vertex epsilon-equal to the cross point, report the "head"
call `(i, junctions[i+1], forward := true)` when `i + 1` is in range and the
"tail" call `(i - 1, junctions[i-1], forward := false)` when `i > 0`.  The
result is the list of callback invocations in order. -/
def forEachEdge (cross : Junction) (junctions : List Junction) : List EdgeCall :=
  (List.range junctions.length).flatMap fun i =>
    if almostEqualAbsPoint cross.point (jget junctions i).point kPointsEqualEpsilon then
      (if i + 1 < junctions.length then [⟨i, jget junctions (i + 1), true⟩] else []) ++
      (if 0 < i then [⟨i - 1, jget junctions (i - 1), false⟩] else [])
    else []

theorem forEachEdge_mem_true (cross : Junction) (js : List Junction) (i : Nat) (v : Junction) :
    (⟨i, v, true⟩ : EdgeCall) ∈ forEachEdge cross js ↔
      i + 1 < js.length ∧
        almostEqualAbsPoint cross.point (jget js i).point kPointsEqualEpsilon = true ∧
        v = jget js (i + 1) := by
  unfold forEachEdge
  simp only [List.mem_flatMap, List.mem_range]
  constructor
  · rintro ⟨j, hj, hmem⟩
    by_cases hnear : almostEqualAbsPoint cross.point (jget js j).point kPointsEqualEpsilon = true
    · simp only [hnear, if_true, List.mem_append] at hmem
      rcases hmem with hmem | hmem
      · by_cases hlt : j + 1 < js.length
        · simp only [hlt, if_true, List.mem_singleton] at hmem
          cases hmem
          exact ⟨hlt, hnear, rfl⟩
        · simp [hlt] at hmem
      · by_cases hpos : 0 < j
        · simp only [hpos, if_true, List.mem_singleton] at hmem
          cases hmem
        · simp [hpos] at hmem
    · simp [hnear] at hmem
  · rintro ⟨hlt, hnear, hv⟩
    refine ⟨i, by omega, ?_⟩
    simp [hnear, hlt, hv]

theorem forEachEdge_mem_false (cross : Junction) (js : List Junction) (k : Nat) (v : Junction) :
    (⟨k, v, false⟩ : EdgeCall) ∈ forEachEdge cross js ↔
      k + 1 < js.length ∧
        almostEqualAbsPoint cross.point (jget js (k + 1)).point kPointsEqualEpsilon = true ∧
        v = jget js k := by
  unfold forEachEdge
  simp only [List.mem_flatMap, List.mem_range]
  constructor
  · rintro ⟨j, hj, hmem⟩
    by_cases hnear : almostEqualAbsPoint cross.point (jget js j).point kPointsEqualEpsilon = true
    · simp only [hnear, if_true, List.mem_append] at hmem
      rcases hmem with hmem | hmem
      · by_cases hlt : j + 1 < js.length
        · simp only [hlt, if_true, List.mem_singleton] at hmem
          cases hmem
        · simp [hlt] at hmem
      · by_cases hpos : 0 < j
        · simp only [hpos, if_true, List.mem_singleton] at hmem
          obtain ⟨hk, hv⟩ : k = j - 1 ∧ v = jget js (j - 1) := by
            refine ⟨?_, ?_⟩ <;> cases hmem <;> rfl
          have hj1 : k + 1 = j := by omega
          refine ⟨by omega, ?_, ?_⟩
          · rw [hj1]; exact hnear
          · rw [hv, hk]
        · simp [hpos] at hmem
    · simp [hnear] at hmem
  · rintro ⟨hlt, hnear, hv⟩
    refine ⟨k + 1, hlt, ?_⟩
    simp [hnear, hv]

/-- C4: for every two Junctions, `operator==` holds iff the two points are
equal under the absolute epsilon `POINTS_EQUAL_EPSILON = 1e-6`, and the
altitudes never affect the result. -/
theorem junction_equality_epsilon_and_altitude_independent :
    (∀ a b : Junction, junctionEq a b = true ↔
      (|a.point.x - b.point.x| < 1 / 1000000 ∧ |a.point.y - b.point.y| < 1 / 1000000)) ∧
    (∀ p q : PointD, ∀ a₁ a₂ b₁ b₂ : TAltitude,
      junctionEq ⟨p, a₁⟩ ⟨q, a₂⟩ = junctionEq ⟨p, b₁⟩ ⟨q, b₂⟩) := by
  constructor
  · intro a b
    simp [junctionEq, pointEq, almostEqualAbsPoint, kPointsEqualEpsilon]
  · intro p q a₁ a₂ b₁ b₂
    rfl

/-- C5: `ICrossEdgesLoader::ForEachEdge` invokes its callback with
`(i, junctions[i+1], forward := true)` iff vertex `i` is epsilon-equal to the
cross point and `i+1` is a valid index, and with
`(i-1, junctions[i-1], forward := false)` iff vertex `i` is epsilon-equal to
the cross point and `i > 0`; vertices not epsilon-equal to the cross produce
no calls. -/
theorem forEachEdge_callback_invocation_characterisation (cross : Junction)
    (js : List Junction) :
    (∀ i v, (⟨i, v, true⟩ : EdgeCall) ∈ forEachEdge cross js ↔
      i + 1 < js.length ∧
        almostEqualAbsPoint cross.point (jget js i).point kPointsEqualEpsilon = true ∧
        v = jget js (i + 1)) ∧
    (∀ k v, (⟨k, v, false⟩ : EdgeCall) ∈ forEachEdge cross js ↔
      k + 1 < js.length ∧
        almostEqualAbsPoint cross.point (jget js (k + 1)).point kPointsEqualEpsilon = true ∧
        v = jget js k) :=
  ⟨fun i v => forEachEdge_mem_true cross js i v,
   fun k v => forEachEdge_mem_false cross js k v⟩

/-! ## Vehicle masks and the mask builder (generator/routing_index_generator.cpp) -/

/-- `routing::VehicleMask`: a bitset over {Pedestrian, Bicycle, Car}. -/
abbrev VehicleMask := Nat

/-- Modelled from the spec: the bit constants of routing/vehicle_mask.hpp are
not under src/; spec §3 "a bitset over the vehicle types {Pedestrian, Bicycle,
Car}; each type has a fixed bit constant". -/
def kPedestrianMask : VehicleMask := 1

/-- See `kPedestrianMask`. -/
def kBicycleMask : VehicleMask := 2

/-- See `kPedestrianMask`. -/
def kCarMask : VehicleMask := 4

/-- A map feature as seen by the generator: its best-resolution polyline. -/
structure FeatureType where
  points : List PointD
deriving DecidableEq, Repr

/-- `IVehicleModel` as the mask builder consumes it: the two classification
predicates (external collaborators per spec §6). -/
structure IVehicleModel where
  isRoad : FeatureType → Bool
  isOneWay : FeatureType → Bool

/-- `VehicleMaskBuilder` (routing_index_generator.cpp): the three per-country
vehicle models, assumed successfully obtained (the constructor CHECKs are
modelled separately by the build-event traces below). -/
structure VehicleMaskBuilder where
  pedestrianModel : IVehicleModel
  bicycleModel : IVehicleModel
  carModel : IVehicleModel

/-- `VehicleMaskBuilder::CalcMask`: one bit per model for which `fn` holds. -/
def VehicleMaskBuilder.calcMask (b : VehicleMaskBuilder)
    (fn : IVehicleModel → FeatureType → Bool) (f : FeatureType) : VehicleMask :=
  ((if fn b.pedestrianModel f then kPedestrianMask else 0) |||
   (if fn b.bicycleModel f then kBicycleMask else 0)) |||
  (if fn b.carModel f then kCarMask else 0)

/-- `VehicleMaskBuilder::CalcRoadMask`. -/
def VehicleMaskBuilder.calcRoadMask (b : VehicleMaskBuilder) (f : FeatureType) : VehicleMask :=
  b.calcMask (fun m => m.isRoad) f

/-- `VehicleMaskBuilder::CalcOneWayMask`. -/
def VehicleMaskBuilder.calcOneWayMask (b : VehicleMaskBuilder) (f : FeatureType) : VehicleMask :=
  b.calcMask (fun m => m.isOneWay) f

/-! ## The cross-MWM transition scan (CalcCrossMwmTransitions) -/

/-- Modelled from the spec: `m2::RegionD` and its `Contains` are not under
src/; spec §6 "region.contains(point) → bool" — a region is represented by
its containment predicate. -/
abbrev RegionD := PointD → Bool

/-- `RegionsContain` (routing_index_generator.cpp): true iff some border
region contains the point. -/
def RegionsContain (regions : List RegionD) (point : PointD) : Bool :=
  regions.any fun region => region point

/-- `CrossMwmConnectorSerializer::Transition` as constructed by
`CalcCrossMwmTransitions`: `backPoint` is `f.GetPoint(i - 1)` and `frontPoint`
is `f.GetPoint(i)`. -/
structure Transition where
  featureId : Nat
  segmentIdx : Nat
  roadMask : VehicleMask
  oneWayMask : VehicleMask
  enterSide : Bool
  backPoint : PointD
  frontPoint : PointD
deriving DecidableEq, Repr

/-- Read point `i` of a polyline (total version of `f.GetPoint(i)`). -/
def pget (points : List PointD) (i : Nat) : PointD :=
  points.getD i ⟨0, 0⟩

/-- The vertex loop of `CalcCrossMwmTransitions`: `prev` is `f.GetPoint(i-1)`,
`prevIn` the C++ `prevPointIn` variable, `i` the loop index of the head of the
remaining point list.  A transition is emitted exactly when the border
containment of the current point differs from `prevIn`. -/
def crossLoop (borders : List RegionD) (featureId : Nat) (roadMask oneWayMask : VehicleMask) :
    PointD → Bool → Nat → List PointD → List Transition
  | _, _, _, [] => []
  | prev, prevIn, i, p :: rest =>
    let currIn := RegionsContain borders p
    if currIn = prevIn then
      crossLoop borders featureId roadMask oneWayMask p prevIn (i + 1) rest
    else
      ⟨featureId, i - 1, roadMask, oneWayMask, currIn, prev, p⟩ ::
        crossLoop borders featureId roadMask oneWayMask p currIn (i + 1) rest

/-- The per-feature body of `CalcCrossMwmTransitions`: skip features whose
road mask is zero or which have no points; otherwise scan consecutive vertex
pairs from index 1. -/
def calcCrossMwmTransitionsFeature (borders : List RegionD) (maskMaker : VehicleMaskBuilder)
    (f : FeatureType) (featureId : Nat) : List Transition :=
  let roadMask := maskMaker.calcRoadMask f
  if roadMask = 0 then []
  else
    match f.points with
    | [] => []
    | p0 :: rest =>
      crossLoop borders featureId roadMask (maskMaker.calcOneWayMask f) p0
        (RegionsContain borders p0) 1 rest

/-- `CalcCrossMwmTransitions` over the whole feature iteration: the global
transition list is the concatenation of the per-feature emissions (the
per-vehicle `AddTransition` connector bookkeeping, external to src/, is not
needed by the claims about the transition list). -/
def calcCrossMwmTransitions (borders : List RegionD) (maskMaker : VehicleMaskBuilder)
    (features : List (FeatureType × Nat)) : List Transition :=
  features.flatMap fun fp => calcCrossMwmTransitionsFeature borders maskMaker fp.1 fp.2

theorem mem_crossLoop (borders : List RegionD) (fid : Nat) (rm owm : VehicleMask)
    (t : Transition) (rest : List PointD) :
    ∀ (prev : PointD) (i : Nat),
      (t ∈ crossLoop borders fid rm owm prev (RegionsContain borders prev) i rest) ↔
      ∃ k, k < rest.length ∧
        RegionsContain borders (pget rest k) ≠ RegionsContain borders (pget (prev :: rest) k) ∧
        t = ⟨fid, i + k - 1, rm, owm, RegionsContain borders (pget rest k),
             pget (prev :: rest) k, pget rest k⟩ := by
  induction rest with
  | nil => intro prev i; simp [crossLoop]
  | cons p rest ih =>
    intro prev i
    simp only [crossLoop]
    by_cases h : RegionsContain borders p = RegionsContain borders prev
    · rw [if_pos h, ← h, ih p (i + 1)]
      constructor
      · rintro ⟨k, hk, hne, ht⟩
        refine ⟨k + 1, by simpa using Nat.succ_lt_succ hk, ?_, ?_⟩
        · simpa [pget] using hne
        · have hidx : i + 1 + k - 1 = i + (k + 1) - 1 := by omega
          rw [← hidx]
          simpa [pget] using ht
      · rintro ⟨k, hk, hne, ht⟩
        match k with
        | 0 =>
          exfalso
          simp only [pget, List.getD_cons_zero] at hne
          exact hne h
        | k' + 1 =>
          refine ⟨k', by simpa using Nat.lt_of_succ_lt_succ hk, ?_, ?_⟩
          · simpa [pget] using hne
          · have hidx : i + 1 + k' - 1 = i + (k' + 1) - 1 := by omega
            rw [hidx]
            simpa [pget] using ht
    · rw [if_neg h]
      rw [List.mem_cons, ih p (i + 1)]
      constructor
      · rintro (ht | ⟨k, hk, hne, ht⟩)
        · exact ⟨0, by simp, by simpa [pget] using h, by simpa [pget] using ht⟩
        · refine ⟨k + 1, by simpa using Nat.succ_lt_succ hk, ?_, ?_⟩
          · simpa [pget] using hne
          · have hidx : i + 1 + k - 1 = i + (k + 1) - 1 := by omega
            rw [← hidx]
            simpa [pget] using ht
      · rintro ⟨k, hk, hne, ht⟩
        match k with
        | 0 =>
          left
          simpa [pget] using ht
        | k' + 1 =>
          right
          refine ⟨k', by simpa using Nat.lt_of_succ_lt_succ hk, ?_, ?_⟩
          · simpa [pget] using hne
          · have hidx : i + 1 + k' - 1 = i + (k' + 1) - 1 := by omega
            rw [hidx]
            simpa [pget] using ht

/-- Full membership characterisation of the per-feature transition scan. -/
theorem mem_calcCrossMwmTransitionsFeature (borders : List RegionD)
    (mb : VehicleMaskBuilder) (f : FeatureType) (fid : Nat) (t : Transition) :
    t ∈ calcCrossMwmTransitionsFeature borders mb f fid ↔
      (mb.calcRoadMask f ≠ 0 ∧
       ∃ i, 1 ≤ i ∧ i < f.points.length ∧
         RegionsContain borders (pget f.points i) ≠
           RegionsContain borders (pget f.points (i - 1)) ∧
         t = ⟨fid, i - 1, mb.calcRoadMask f, mb.calcOneWayMask f,
              RegionsContain borders (pget f.points i),
              pget f.points (i - 1), pget f.points i⟩) := by
  unfold calcCrossMwmTransitionsFeature
  by_cases hm : mb.calcRoadMask f = 0
  · simp [hm]
  · rw [if_neg hm]
    match hp : f.points with
    | [] => simp [hm]
    | p0 :: rest =>
      rw [mem_crossLoop borders fid _ _ t rest p0 1]
      simp only [hm, Ne, not_false_iff, true_and]
      constructor
      · rintro ⟨k, hk, hne, ht⟩
        refine ⟨k + 1, by omega, by simpa using Nat.succ_lt_succ hk, ?_, ?_⟩
        · simpa [pget] using hne
        · have hidx : 1 + k - 1 = k + 1 - 1 := by omega
          rw [← hidx]
          simpa [pget] using ht
      · rintro ⟨i, hi1, hilen, hne, ht⟩
        match i, hi1 with
        | k + 1, _ =>
          refine ⟨k, by simpa using Nat.lt_of_succ_lt_succ hilen, ?_, ?_⟩
          · simpa [pget] using hne
          · have hidx : 1 + k - 1 = k + 1 - 1 := by omega
            rw [hidx]
            simpa [pget] using ht

/-- C1: in the border-crossing scan, for a feature with non-zero road mask and
at least one point, a transition is emitted at vertex `i` (`1 ≤ i < length`)
iff the border containment of `p[i]` differs from that of `p[i-1]`, carrying
segment index `i-1`, `enterSide` = containment of `p[i]`, and the two points;
a zero road mask or zero points emits no transitions (and is no error). -/
theorem cross_transition_scan_emits_iff_containment_flips (borders : List RegionD)
    (mb : VehicleMaskBuilder) (f : FeatureType) (fid : Nat) :
    (∀ t, t ∈ calcCrossMwmTransitionsFeature borders mb f fid ↔
      (mb.calcRoadMask f ≠ 0 ∧
       ∃ i, 1 ≤ i ∧ i < f.points.length ∧
         RegionsContain borders (pget f.points i) ≠
           RegionsContain borders (pget f.points (i - 1)) ∧
         t = ⟨fid, i - 1, mb.calcRoadMask f, mb.calcOneWayMask f,
              RegionsContain borders (pget f.points i),
              pget f.points (i - 1), pget f.points i⟩)) ∧
    (mb.calcRoadMask f = 0 → calcCrossMwmTransitionsFeature borders mb f fid = []) ∧
    (f.points = [] → calcCrossMwmTransitionsFeature borders mb f fid = []) := by
  refine ⟨fun t => mem_calcCrossMwmTransitionsFeature borders mb f fid t, ?_, ?_⟩
  · intro hm
    simp [calcCrossMwmTransitionsFeature, hm]
  · intro hp
    simp [calcCrossMwmTransitionsFeature, hp]

/-- A vehicle model accepting every feature as a road and as one-way. -/
def modelAllTrue : IVehicleModel := ⟨fun _ => true, fun _ => true⟩

/-- A vehicle model rejecting every feature. -/
def modelAllFalse : IVehicleModel := ⟨fun _ => false, fun _ => false⟩

/-- A vehicle model classifying every feature as a road but never one-way. -/
def modelRoadOnly : IVehicleModel := ⟨fun _ => true, fun _ => false⟩

/-- Mask builder whose three models accept everything. -/
def mbAll : VehicleMaskBuilder := ⟨modelAllTrue, modelAllTrue, modelAllTrue⟩

/-- Mask builder whose three models reject everything (road mask 0). -/
def mbNone : VehicleMaskBuilder := ⟨modelAllFalse, modelAllFalse, modelAllFalse⟩

/-- Mask builder where only the car model reports one-way. -/
def mbMixed : VehicleMaskBuilder := ⟨modelRoadOnly, modelRoadOnly, modelAllTrue⟩

/-- One border region: the half-plane `y ≤ 1`. -/
def borders0 : List RegionD := [fun p => decide (p.y ≤ 1)]

/-- A two-point feature crossing the `y ≤ 1` border. -/
def feat0 : FeatureType := ⟨[⟨0, 0⟩, ⟨0, 2⟩]⟩

/-- A feature with no points. -/
def featEmpty : FeatureType := ⟨[]⟩

theorem cross_transition_scan_emits_iff_containment_flips_witness :
    calcCrossMwmTransitionsFeature borders0 mbNone feat0 7 = [] ∧
    calcCrossMwmTransitionsFeature borders0 mbAll featEmpty 9 = [] ∧
    (⟨7, 0, 7, 7, false, ⟨0, 0⟩, ⟨0, 2⟩⟩ : Transition) ∈
      calcCrossMwmTransitionsFeature borders0 mbAll feat0 7 :=
  ⟨(cross_transition_scan_emits_iff_containment_flips borders0 mbNone feat0 7).2.1 (by decide),
   (cross_transition_scan_emits_iff_containment_flips borders0 mbAll featEmpty 9).2.2 rfl,
   ((cross_transition_scan_emits_iff_containment_flips borders0 mbAll feat0 7).1 _).mpr
     (by refine ⟨by decide, 1, le_refl 1, by decide, by decide, by decide⟩)⟩

/-- C7: every transition emitted by the cross-tile transition scan has its two
recorded points on opposite sides of the border regions: the containment
predicate evaluates differently on `frontPoint` and `backPoint`. -/
theorem transition_endpoints_straddle_border (borders : List RegionD)
    (mb : VehicleMaskBuilder) (features : List (FeatureType × Nat)) (t : Transition)
    (h : t ∈ calcCrossMwmTransitions borders mb features) :
    RegionsContain borders t.frontPoint ≠ RegionsContain borders t.backPoint := by
  unfold calcCrossMwmTransitions at h
  rw [List.mem_flatMap] at h
  obtain ⟨fp, -, hmem⟩ := h
  rw [mem_calcCrossMwmTransitionsFeature] at hmem
  obtain ⟨-, i, -, -, hne, ht⟩ := hmem
  subst ht
  simpa using hne

theorem transition_endpoints_straddle_border_witness :
    RegionsContain borders0 (⟨7, 0, 7, 7, false, ⟨0, 0⟩, ⟨0, 2⟩⟩ : Transition).frontPoint ≠
      RegionsContain borders0 (⟨7, 0, 7, 7, false, ⟨0, 0⟩, ⟨0, 2⟩⟩ : Transition).backPoint :=
  transition_endpoints_straddle_border borders0 mbAll [(feat0, 7)]
    ⟨7, 0, 7, 7, false, ⟨0, 0⟩, ⟨0, 2⟩⟩ (by decide)

/-- C10: every transition a feature emits carries the feature-level road mask
and one-way mask; the recorded masks do not depend on the crossing segment. -/
theorem transitions_of_feature_carry_feature_masks (borders : List RegionD)
    (mb : VehicleMaskBuilder) (f : FeatureType) (fid : Nat) (t : Transition)
    (h : t ∈ calcCrossMwmTransitionsFeature borders mb f fid) :
    t.roadMask = mb.calcRoadMask f ∧ t.oneWayMask = mb.calcOneWayMask f := by
  rw [mem_calcCrossMwmTransitionsFeature] at h
  obtain ⟨-, i, -, -, -, ht⟩ := h
  subst ht
  exact ⟨rfl, rfl⟩

theorem transitions_of_feature_carry_feature_masks_witness :
    (⟨7, 0, 7, 4, false, ⟨0, 0⟩, ⟨0, 2⟩⟩ : Transition).roadMask = mbMixed.calcRoadMask feat0 ∧
    (⟨7, 0, 7, 4, false, ⟨0, 0⟩, ⟨0, 2⟩⟩ : Transition).oneWayMask = mbMixed.calcOneWayMask feat0 :=
  transitions_of_feature_carry_feature_masks borders0 mbMixed feat0 7
    ⟨7, 0, 7, 4, false, ⟨0, 0⟩, ⟨0, 2⟩⟩ (by decide)

/-! ## The index graph builder (Processor) -/

/-- `routing::RoadPoint`: a feature id plus a vertex index on its polyline. -/
structure RoadPoint where
  featureId : Nat
  pointId : Nat
deriving DecidableEq, Repr

/-- `routing::Joint`: the collection of road points added via `AddPoint`. -/
abbrev Joint := List RoadPoint

/-- The part of `routing::IndexGraph` the builder touches: the joint table
set by `Import`. -/
structure IndexGraph where
  joints : List Joint

/-- `IndexGraph::Import`: install the joint table. -/
def IndexGraph.Import (_g : IndexGraph) (joints : List Joint) : IndexGraph :=
  ⟨joints⟩

/-- `m_posToJoint[key].AddPoint(rp)`: append `rp` to the joint stored under
`key`, default-constructing the joint when the key is new (the C++
`unordered_map::operator[]` behaviour, modelled as an association list). -/
def addPointToJoint (m : List (Nat × Joint)) (k : Nat) (rp : RoadPoint) :
    List (Nat × Joint) :=
  match m with
  | [] => [(k, [rp])]
  | (k', j) :: rest =>
    if k' = k then (k', j ++ [rp]) :: rest
    else (k', j) :: addPointToJoint rest k rp

/-- Joint stored under `k` (empty when absent). -/
def lookupJoint (m : List (Nat × Joint)) (k : Nat) : Joint :=
  match m with
  | [] => []
  | (k', j) :: rest => if k' = k then j else lookupJoint rest k

/-- `m_masks[id] = mask` on an association list. -/
def setMaskEntry (m : List (Nat × VehicleMask)) (id : Nat) (mask : VehicleMask) :
    List (Nat × VehicleMask) :=
  match m with
  | [] => [(id, mask)]
  | (id', v) :: rest =>
    if id' = id then (id', mask) :: rest
    else (id', v) :: setMaskEntry rest id mask

/-- `POINT_COORD_BITS` (indexer serialisation resolution). -/
def POINT_COORD_BITS : Nat := 30

/-- Modelled from the spec: `PointToInt64` (indexer/point_to_int64.hpp) is not
under src/.  Spec §4.3: "derive a 64-bit location key by quantising the point
to `POINT_COORD_BITS` resolution".  Each coordinate is snapped to the
`2 ^ POINT_COORD_BITS` grid over the map coordinate range [-180, 180]. -/
def coordToUint32 (x : ℚ) : Nat :=
  (Int.toNat ⌊(x + 180) / 360 * ((2 : ℚ) ^ POINT_COORD_BITS)⌋) % 2 ^ POINT_COORD_BITS

/-- Modelled from the spec: the two grid indices packed into one 64-bit key. -/
def PointToInt64 (p : PointD) : Nat :=
  (coordToUint32 p.x * 2 ^ 32 + coordToUint32 p.y) % 2 ^ 64

/-- The vertex loop of `Processor::ProcessFeature`: insert
`RoadPoint(id, i)` under the location key of point `i`, for each `i`. -/
def addFeaturePoints (id : Nat) : Nat → List PointD → List (Nat × Joint) →
    List (Nat × Joint)
  | _, [], m => m
  | i, p :: rest, m =>
    addFeaturePoints id (i + 1) rest (addPointToJoint m (PointToInt64 p) ⟨id, i⟩)

/-- The builder state of `Processor`: `m_posToJoint` and `m_masks`. -/
structure Processor where
  posToJoint : List (Nat × Joint)
  masks : List (Nat × VehicleMask)

/-- The freshly constructed `Processor` (empty maps). -/
def Processor.initial : Processor := ⟨[], []⟩

/-- `Processor::ProcessFeature`: skip zero-road-mask features; otherwise
record the mask and insert every vertex into `m_posToJoint` by its quantised
location key. -/
def Processor.processFeature (st : Processor) (mb : VehicleMaskBuilder)
    (f : FeatureType) (id : Nat) : Processor :=
  let mask := mb.calcRoadMask f
  if mask = 0 then st
  else
    { posToJoint := addFeaturePoints id 0 f.points st.posToJoint,
      masks := setMaskEntry st.masks id mask }

/-- `Processor::ProcessAllFeatures`: fold `ProcessFeature` over the feature
iteration. -/
def Processor.processAllFeatures (st : Processor) (mb : VehicleMaskBuilder)
    (fs : List (FeatureType × Nat)) : Processor :=
  fs.foldl (fun s fp => s.processFeature mb fp.1 fp.2) st

/-- `Processor::BuildGraph`: keep only joints with at least two members and
pass them to `IndexGraph::Import`. -/
def Processor.buildGraph (st : Processor) (g : IndexGraph) : IndexGraph :=
  g.Import (((st.posToJoint.filter fun kv => decide (2 ≤ kv.2.length)).map fun kv => kv.2))

theorem lookupJoint_addPointToJoint (m : List (Nat × Joint)) (k : Nat) (rp : RoadPoint)
    (q : Nat) :
    lookupJoint (addPointToJoint m k rp) q =
      if q = k then lookupJoint m k ++ [rp] else lookupJoint m q := by
  induction m with
  | nil =>
    by_cases hq : q = k
    · simp_all [addPointToJoint, lookupJoint]
    · simp_all [addPointToJoint, lookupJoint, Ne.symm hq]
  | cons kv rest ih =>
    obtain ⟨k₀, j₀⟩ := kv
    by_cases h0 : k₀ = k <;> by_cases hq : q = k <;> by_cases h0q : k₀ = q <;>
      simp_all [addPointToJoint, lookupJoint]

theorem mem_lookupJoint_addFeaturePoints (id : Nat) (pts : List PointD) :
    ∀ (i : Nat) (m : List (Nat × Joint)) (rp : RoadPoint) (k : Nat),
      rp ∈ lookupJoint (addFeaturePoints id i pts m) k ↔
        (rp ∈ lookupJoint m k ∨
         ∃ off, off < pts.length ∧ rp = ⟨id, i + off⟩ ∧ PointToInt64 (pget pts off) = k) := by
  induction pts with
  | nil => intro i m rp k; simp [addFeaturePoints]
  | cons p rest ih =>
    intro i m rp k
    rw [addFeaturePoints, ih (i + 1), lookupJoint_addPointToJoint]
    constructor
    · rintro (hm | ⟨off, hoff, hrp, hkey⟩)
      · by_cases hk : k = PointToInt64 p
        · rw [if_pos hk, List.mem_append, List.mem_singleton] at hm
          rcases hm with hm | hm
          · left; rw [hk]; exact hm
          · right
            exact ⟨0, by simp, by simpa using hm, by simp [pget, hk.symm]⟩
        · rw [if_neg hk] at hm
          left; exact hm
      · right
        refine ⟨off + 1, by simpa using Nat.succ_lt_succ hoff, ?_, ?_⟩
        · rw [hrp]; congr 1; omega
        · simpa [pget] using hkey
    · rintro (hm | ⟨off, hoff, hrp, hkey⟩)
      · left
        by_cases hk : k = PointToInt64 p
        · rw [if_pos hk, List.mem_append]
          left; rw [← hk]; exact hm
        · rw [if_neg hk]; exact hm
      · match off with
        | 0 =>
          left
          simp only [pget, List.getD_cons_zero] at hkey
          rw [if_pos hkey.symm, List.mem_append, List.mem_singleton]
          right
          simpa using hrp
        | o + 1 =>
          right
          refine ⟨o, by simpa using Nat.lt_of_succ_lt_succ hoff, ?_, ?_⟩
          · rw [hrp]; congr 1; omega
          · simpa [pget] using hkey

theorem mem_posToJoint_processFeature (st : Processor) (mb : VehicleMaskBuilder)
    (f : FeatureType) (id : Nat) (rp : RoadPoint) (k : Nat) :
    rp ∈ lookupJoint (st.processFeature mb f id).posToJoint k ↔
      (rp ∈ lookupJoint st.posToJoint k ∨
       (mb.calcRoadMask f ≠ 0 ∧
        ∃ i, i < f.points.length ∧ rp = ⟨id, i⟩ ∧ PointToInt64 (pget f.points i) = k)) := by
  unfold Processor.processFeature
  by_cases hm : mb.calcRoadMask f = 0
  · simp [hm]
  · simp only [hm, if_neg, if_false]
    rw [mem_lookupJoint_addFeaturePoints id f.points 0 st.posToJoint rp k]
    simp [hm]

theorem mem_posToJoint_processAllFeatures (mb : VehicleMaskBuilder)
    (fs : List (FeatureType × Nat)) :
    ∀ (st : Processor) (rp : RoadPoint) (k : Nat),
      rp ∈ lookupJoint (st.processAllFeatures mb fs).posToJoint k ↔
        (rp ∈ lookupJoint st.posToJoint k ∨
         ∃ fp ∈ fs, mb.calcRoadMask fp.1 ≠ 0 ∧
           ∃ i, i < fp.1.points.length ∧ rp = ⟨fp.2, i⟩ ∧
             PointToInt64 (pget fp.1.points i) = k) := by
  induction fs with
  | nil => intro st rp k; simp [Processor.processAllFeatures]
  | cons fp fs ih =>
    intro st rp k
    have hstep : st.processAllFeatures mb (fp :: fs) =
        (st.processFeature mb fp.1 fp.2).processAllFeatures mb fs := rfl
    rw [hstep, ih, mem_posToJoint_processFeature]
    constructor
    · rintro ((hm | h) | ⟨fp', hfp', h⟩)
      · exact Or.inl hm
      · exact Or.inr ⟨fp, List.mem_cons_self fp fs, h.1, h.2⟩
      · exact Or.inr ⟨fp', List.mem_cons_of_mem fp hfp', h⟩
    · rintro (hm | ⟨fp', hfp', h⟩)
      · exact Or.inl (Or.inl hm)
      · rcases List.mem_cons.mp hfp' with rfl | hfp'
        · exact Or.inl (Or.inr h)
        · exact Or.inr ⟨fp', hfp', h⟩

theorem feature_of_id_unique {fs : List (FeatureType × Nat)}
    (hdist : fs.Pairwise fun a b => a.2 ≠ b.2) :
    ∀ {f g : FeatureType} {id : Nat}, (f, id) ∈ fs → (g, id) ∈ fs → f = g := by
  induction fs with
  | nil => intro f g id hf _; cases hf
  | cons a fs ih =>
    intro f g id hf hg
    obtain ⟨ha, hrest⟩ := List.pairwise_cons.mp hdist
    rcases List.mem_cons.mp hf with hf' | hf'
    · rcases List.mem_cons.mp hg with hg' | hg'
      · rw [← hf'] at hg'
        exact (Prod.ext_iff.mp hg').1.symm
      · exfalso
        have hne := ha _ hg'
        rw [← hf'] at hne
        exact hne rfl
    · rcases List.mem_cons.mp hg with hg' | hg'
      · exfalso
        have hne := ha _ hf'
        rw [← hg'] at hne
        exact hne rfl
      · exact ih hrest hf' hg'

/-- C3: the joint table produced by `Processor::BuildGraph` and passed to
`IndexGraph::Import` contains exactly the accumulated joints with at least
two members: every joint of size ≥ 2 is passed, and no joint of size < 2. -/
theorem builder_joint_table_exactly_size_ge_two (mb : VehicleMaskBuilder)
    (fs : List (FeatureType × Nat)) (g : IndexGraph) (j : Joint) :
    j ∈ ((Processor.initial.processAllFeatures mb fs).buildGraph g).joints ↔
      ((∃ k, (k, j) ∈ (Processor.initial.processAllFeatures mb fs).posToJoint) ∧
       2 ≤ j.length) := by
  unfold Processor.buildGraph IndexGraph.Import
  simp only [List.mem_map, List.mem_filter, decide_eq_true_eq]
  constructor
  · rintro ⟨⟨k, jv⟩, ⟨hmem, hsize⟩, rfl⟩
    exact ⟨⟨k, hmem⟩, hsize⟩
  · rintro ⟨⟨k, hmem⟩, hsize⟩
    exact ⟨(k, j), ⟨hmem, hsize⟩, rfl⟩

/-- C6: after the builder's feature iteration, two road-masked feature
vertices lie in the same joint iff their 64-bit quantised location keys are
equal; no geometric epsilon enters the coalescence decision. -/
theorem joint_coalescence_iff_equal_location_keys (mb : VehicleMaskBuilder)
    (fs : List (FeatureType × Nat)) (f g : FeatureType) (idf idg : Nat) (i j : Nat)
    (hdist : fs.Pairwise fun a b => a.2 ≠ b.2)
    (hf : (f, idf) ∈ fs) (hg : (g, idg) ∈ fs)
    (hmf : mb.calcRoadMask f ≠ 0) (hmg : mb.calcRoadMask g ≠ 0)
    (hi : i < f.points.length) (hj : j < g.points.length) :
    (∃ k, (⟨idf, i⟩ : RoadPoint) ∈
            lookupJoint (Processor.initial.processAllFeatures mb fs).posToJoint k ∧
          (⟨idg, j⟩ : RoadPoint) ∈
            lookupJoint (Processor.initial.processAllFeatures mb fs).posToJoint k) ↔
      PointToInt64 (pget f.points i) = PointToInt64 (pget g.points j) := by
  constructor
  · rintro ⟨k, h1, h2⟩
    rw [mem_posToJoint_processAllFeatures] at h1 h2
    rcases h1 with h1 | ⟨fp1, hfp1, -, i1, -, hrp1, hkey1⟩
    · simp [Processor.initial, lookupJoint] at h1
    rcases h2 with h2 | ⟨fp2, hfp2, -, i2, -, hrp2, hkey2⟩
    · simp [Processor.initial, lookupJoint] at h2
    obtain ⟨hid1, hi1⟩ : idf = fp1.2 ∧ i = i1 := by
      simpa [RoadPoint.mk.injEq] using hrp1
    obtain ⟨hid2, hi2⟩ : idg = fp2.2 ∧ j = i2 := by
      simpa [RoadPoint.mk.injEq] using hrp2
    have hfp1' : (fp1.1, idf) ∈ fs := by rw [hid1]; exact hfp1
    have hfp2' : (fp2.1, idg) ∈ fs := by rw [hid2]; exact hfp2
    have hf1 : f = fp1.1 := feature_of_id_unique hdist hf hfp1'
    have hg2 : g = fp2.1 := feature_of_id_unique hdist hg hfp2'
    rw [hf1, hg2, hi1, hi2]
    exact hkey1.trans hkey2.symm
  · intro hkey
    refine ⟨PointToInt64 (pget f.points i), ?_, ?_⟩
    · rw [mem_posToJoint_processAllFeatures]
      exact Or.inr ⟨(f, idf), hf, hmf, i, hi, rfl, rfl⟩
    · rw [mem_posToJoint_processAllFeatures]
      exact Or.inr ⟨(g, idg), hg, hmg, j, hj, rfl, hkey.symm⟩

/-- Feature A of scenario S1: `[(0,0), (1,0)]`. -/
def featA : FeatureType := ⟨[⟨0, 0⟩, ⟨1, 0⟩]⟩

/-- Feature B of scenario S1: `[(1,0), (1,1)]`. -/
def featB : FeatureType := ⟨[⟨1, 0⟩, ⟨1, 1⟩]⟩

/-- The two-feature tile of scenario S1. -/
def fsS1 : List (FeatureType × Nat) := [(featA, 0), (featB, 1)]

theorem joint_coalescence_iff_equal_location_keys_witness :
    ∃ k, (⟨0, 1⟩ : RoadPoint) ∈
           lookupJoint (Processor.initial.processAllFeatures mbAll fsS1).posToJoint k ∧
         (⟨1, 0⟩ : RoadPoint) ∈
           lookupJoint (Processor.initial.processAllFeatures mbAll fsS1).posToJoint k :=
  (joint_coalescence_iff_equal_location_keys mbAll fsS1 featA featB 0 1 1 0
      (by decide) (by decide) (by decide) (by decide) (by decide) (by decide)
      (by decide)).mpr
    (congrArg PointToInt64 (by decide))

/-! ## Leap weights (FillWeights and BuildCrossMwmSection) -/

/-- `routing::Segment`: feature id, segment index and direction. -/
structure Segment where
  featureId : Nat
  segmentIdx : Nat
  forward : Bool
deriving DecidableEq, Repr

/-- Modelled from the spec: `CrossMwmConnector::kNoRoute`, the sentinel weight
for an unreachable (enter, exit) pair (routing/cross_mwm_connector.hpp is not
under src/). -/
def kNoRoute : ℚ := -1

/-- `row[x] = w` on the inner `map<Segment, double>`. -/
def setInRow (row : List (Segment × ℚ)) (x : Segment) (w : ℚ) : List (Segment × ℚ) :=
  match row with
  | [] => [(x, w)]
  | (x', w') :: rest =>
    if x' = x then (x', w) :: rest
    else (x', w') :: setInRow rest x w

/-- `row.find(x)` on the inner map. -/
def lookupRow (row : List (Segment × ℚ)) (x : Segment) : Option ℚ :=
  match row with
  | [] => none
  | (x', w') :: rest => if x' = x then some w' else lookupRow rest x

/-- `weights[e][x] = w` on the outer `map<Segment, map<Segment, double>>`. -/
def setWeight (tbl : List (Segment × List (Segment × ℚ))) (e x : Segment) (w : ℚ) :
    List (Segment × List (Segment × ℚ)) :=
  match tbl with
  | [] => [(e, [(x, w)])]
  | (e', row) :: rest =>
    if e' = e then (e', setInRow row x w) :: rest
    else (e', row) :: setWeight rest e x w

/-- `weights.find(e)` on the outer map. -/
def lookupTable (tbl : List (Segment × List (Segment × ℚ))) (e : Segment) :
    Option (List (Segment × ℚ)) :=
  match tbl with
  | [] => none
  | (e', row) :: rest => if e' = e then some row else lookupTable rest e

/-- The recorded weight of the pair `(e, x)`, when any. -/
def lookup2 (tbl : List (Segment × List (Segment × ℚ))) (e x : Segment) : Option ℚ :=
  (lookupTable tbl e).bind fun row => lookupRow row x

/-- The weight-collection loops of `FillWeights`
(routing_index_generator.cpp): for each enter `e` the Dijkstra wave is run and
every exit found in its distance map is recorded under `weights[e][exit]`.
`wave` abstracts `AStarAlgorithm::PropagateWave` (modelled from the spec:
routing/base/astar_algorithm.hpp is not under src/): `wave e x` is the wave's
finalised distance of `x` from `e`, `none` when `x` was not reached. -/
def fillWeightsTable (wave : Segment → Segment → Option ℚ)
    (enters exits : List Segment) : List (Segment × List (Segment × ℚ)) :=
  enters.foldl
    (fun tbl enter =>
      exits.foldl
        (fun tbl2 exit =>
          match wave enter exit with
          | some d => setWeight tbl2 enter exit d
          | none => tbl2)
        tbl)
    []

/-- The lookup closure passed to `connector.FillWeights`: `weights[e][x]` when
both finds succeed, otherwise `kNoRoute`. -/
def weightLookup (tbl : List (Segment × List (Segment × ℚ))) (enter exit : Segment) : ℚ :=
  match lookupTable tbl enter with
  | none => kNoRoute
  | some row =>
    match lookupRow row exit with
    | none => kNoRoute
    | some w => w

/-- `routing::CrossMwmConnector` as the generator uses it: the enter and exit
Segment lists and the filled weight matrix (empty before `FillWeights`). -/
structure CrossMwmConnector where
  enters : List Segment
  exits : List Segment
  weights : List (List ℚ)
deriving DecidableEq, Repr

/-- Modelled from the spec: `CrossMwmConnector::FillWeights` (not under src/)
records `lookup(enter, exit)` for every enter/exit pair. -/
def CrossMwmConnector.fillWeights (c : CrossMwmConnector)
    (lookup : Segment → Segment → ℚ) : CrossMwmConnector :=
  { c with weights := c.enters.map fun e => c.exits.map fun x => lookup e x }

/-- `FillWeights` (routing_index_generator.cpp): run the wave from every
enter, record the reached exits, and fill the connector through the lookup
closure. -/
def FillWeights (wave : Segment → Segment → Option ℚ) (c : CrossMwmConnector) :
    CrossMwmConnector :=
  c.fillWeights (weightLookup (fillWeightsTable wave c.enters c.exits))

/-- `routing::VehicleType`. -/
inductive VehicleType
  | Pedestrian
  | Bicycle
  | Car
deriving DecidableEq, Repr

/-- The `FillWeights` call in `BuildCrossMwmSection`: only
`connectors[VehicleType::Car]` is filled; all other connectors stay as they
were. -/
def buildCrossMwmSectionFill (wave : Segment → Segment → Option ℚ)
    (connectors : VehicleType → CrossMwmConnector) : VehicleType → CrossMwmConnector :=
  fun vt =>
    if vt = VehicleType.Car then FillWeights wave (connectors VehicleType.Car)
    else connectors vt

theorem lookupRow_setInRow (row : List (Segment × ℚ)) (x : Segment) (w : ℚ) (y : Segment) :
    lookupRow (setInRow row x w) y = if y = x then some w else lookupRow row y := by
  induction row with
  | nil =>
    by_cases hy : y = x
    · simp_all [setInRow, lookupRow]
    · simp_all [setInRow, lookupRow, Ne.symm hy]
  | cons xw rest ih =>
    obtain ⟨x₀, w₀⟩ := xw
    by_cases h0 : x₀ = x <;> by_cases hy : y = x <;> by_cases h0y : x₀ = y <;>
      simp_all [setInRow, lookupRow]

theorem lookupTable_setWeight (tbl : List (Segment × List (Segment × ℚ)))
    (e x : Segment) (w : ℚ) (q : Segment) :
    lookupTable (setWeight tbl e x w) q =
      if q = e then some (setInRow ((lookupTable tbl e).getD []) x w)
      else lookupTable tbl q := by
  induction tbl with
  | nil =>
    by_cases hq : q = e
    · simp_all [setWeight, lookupTable, setInRow]
    · simp_all [setWeight, lookupTable, Ne.symm hq]
  | cons er rest ih =>
    obtain ⟨e₀, row₀⟩ := er
    by_cases h0 : e₀ = e <;> by_cases hq : q = e <;> by_cases h0q : e₀ = q <;>
      simp_all [setWeight, lookupTable]

theorem lookup2_setWeight (tbl : List (Segment × List (Segment × ℚ)))
    (e x : Segment) (w : ℚ) (q y : Segment) :
    lookup2 (setWeight tbl e x w) q y =
      if q = e ∧ y = x then some w else lookup2 tbl q y := by
  unfold lookup2
  rw [lookupTable_setWeight]
  by_cases hq : q = e
  · rw [if_pos hq]
    simp only [Option.bind_some, Option.some_bind]
    rw [lookupRow_setInRow]
    by_cases hy : y = x
    · simp [hq, hy]
    · simp only [hq, hy, and_false, if_false, if_neg hy]
      cases htbl : lookupTable tbl e with
      | none => simp [htbl, lookupRow]
      | some row => simp [htbl]
  · simp [hq]

theorem lookup2_innerFold (wave : Segment → Segment → Option ℚ) (e : Segment)
    (exits : List Segment) :
    ∀ (tbl : List (Segment × List (Segment × ℚ))) (q y : Segment),
      lookup2
        (exits.foldl
          (fun tbl2 exit =>
            match wave e exit with
            | some d => setWeight tbl2 e exit d
            | none => tbl2)
          tbl) q y =
        match (if q = e ∧ y ∈ exits then wave e y else none) with
        | some d => some d
        | none => lookup2 tbl q y := by
  induction exits with
  | nil => intro tbl q y; simp
  | cons x exits ih =>
    intro tbl q y
    rw [List.foldl_cons, ih]
    by_cases hq : q = e
    · by_cases hymem : y ∈ exits
      · simp only [hq, hymem, List.mem_cons, or_true, and_true, true_and, if_true]
        cases hw : wave e y with
        | some d => rfl
        | none =>
          by_cases hyx : y = x
          · subst hyx
            simp [hw]
          · cases hw2 : wave e x with
            | some d2 => simp [lookup2_setWeight, hq, hyx]
            | none => rfl
      · by_cases hyx : y = x
        · subst hyx
          simp only [hq, hymem, and_false, if_false, List.mem_cons, true_or, and_true,
            true_and, if_true]
          cases hw : wave e y with
          | some d => simp [lookup2_setWeight, hq]
          | none => rfl
        · have hmem : ¬ y ∈ x :: exits := by
            simp [hyx, hymem]
          simp only [hq, hymem, and_false, if_false, hmem, true_and, if_false]
          cases hw2 : wave e x with
          | some d2 => simp [lookup2_setWeight, hq, hyx]
          | none => rfl
    · simp only [hq, false_and, if_false]
      cases hw2 : wave e x with
      | some d2 => simp [lookup2_setWeight, hq]
      | none => rfl

theorem lookup2_fillWeightsTable (wave : Segment → Segment → Option ℚ)
    (enters exits : List Segment) (q y : Segment) :
    lookup2 (fillWeightsTable wave enters exits) q y =
      if q ∈ enters ∧ y ∈ exits then wave q y else none := by
  suffices h : ∀ tbl,
      lookup2
        (enters.foldl
          (fun tbl enter =>
            exits.foldl
              (fun tbl2 exit =>
                match wave enter exit with
                | some d => setWeight tbl2 enter exit d
                | none => tbl2)
              tbl)
          tbl) q y =
        match (if q ∈ enters ∧ y ∈ exits then wave q y else none) with
        | some d => some d
        | none => lookup2 tbl q y by
    rw [fillWeightsTable, h []]
    cases hif : (if q ∈ enters ∧ y ∈ exits then wave q y else none) with
    | some d => simp_all
    | none => simp_all [lookup2, lookupTable]
  induction enters with
  | nil => intro tbl; simp
  | cons e enters ih =>
    intro tbl
    rw [List.foldl_cons, ih, lookup2_innerFold]
    by_cases hq : q = e
    · subst hq
      by_cases hymem : y ∈ exits
      · simp only [hymem, and_true, List.mem_cons, true_or, if_true, true_and]
        by_cases hqmem : q ∈ enters <;>
          simp [hqmem] <;> cases hw : wave q y <;> simp [hw]
      · simp [hymem]
    · by_cases hqmem : q ∈ enters
      · have : q ∈ e :: enters := List.mem_cons_of_mem e hqmem
        simp only [hqmem, this, hq, false_and, if_false]
      · have hnmem : ¬ q ∈ e :: enters := by
          simp [hq, hqmem]
        simp [hqmem, hnmem, hq]

theorem weightLookup_eq_getD (tbl : List (Segment × List (Segment × ℚ)))
    (e x : Segment) :
    weightLookup tbl e x = (lookup2 tbl e x).getD kNoRoute := by
  unfold weightLookup lookup2
  cases lookupTable tbl e with
  | none => rfl
  | some row =>
    simp only [Option.some_bind]
    cases lookupRow row x <;> rfl

/-- C2: in the leap-weight build — performed only for the Car connector — the
weight table records `weights[e][x]` equal to the wave's finalised distance at
`x` iff `x` was reached, and the lookup passed to `connector.FillWeights`
returns the recorded weight, or `kNoRoute` for every pair with no recorded
weight; the non-Car connectors are left untouched. -/
theorem leap_weight_build_car_only_and_lookup (wave : Segment → Segment → Option ℚ)
    (connectors : VehicleType → CrossMwmConnector) (e x : Segment) (d : ℚ) :
    (lookup2
        (fillWeightsTable wave (connectors VehicleType.Car).enters
          (connectors VehicleType.Car).exits) e x = some d ↔
      (e ∈ (connectors VehicleType.Car).enters ∧
       x ∈ (connectors VehicleType.Car).exits ∧ wave e x = some d)) ∧
    (weightLookup
        (fillWeightsTable wave (connectors VehicleType.Car).enters
          (connectors VehicleType.Car).exits) e x =
      (lookup2
          (fillWeightsTable wave (connectors VehicleType.Car).enters
            (connectors VehicleType.Car).exits) e x).getD kNoRoute) ∧
    buildCrossMwmSectionFill wave connectors VehicleType.Car =
      FillWeights wave (connectors VehicleType.Car) ∧
    (∀ vt, vt ≠ VehicleType.Car → buildCrossMwmSectionFill wave connectors vt = connectors vt) := by
  refine ⟨?_, weightLookup_eq_getD _ e x, rfl, ?_⟩
  · rw [lookup2_fillWeightsTable]
    by_cases hmem : e ∈ (connectors VehicleType.Car).enters ∧
        x ∈ (connectors VehicleType.Car).exits
    · simp [hmem.1, hmem.2]
    · rw [if_neg hmem]
      constructor
      · intro h; cases h
      · rintro ⟨h1, h2, -⟩
        exact absurd ⟨h1, h2⟩ hmem
  · intro vt hvt
    simp [buildCrossMwmSectionFill, hvt]

/-- A concrete enter segment. -/
def s0 : Segment := ⟨0, 0, true⟩

/-- A concrete exit segment reachable from `s0` at distance 5. -/
def s1 : Segment := ⟨1, 0, true⟩

/-- A concrete exit segment unreachable from `s0`. -/
def s2 : Segment := ⟨2, 0, false⟩

/-- A concrete Dijkstra-wave result: only `s1` is reached from `s0`. -/
def wave0 : Segment → Segment → Option ℚ :=
  fun e x => if e = s0 ∧ x = s1 then some 5 else none

/-- Concrete connectors: one enter, two exits, for every vehicle type. -/
def connectors0 : VehicleType → CrossMwmConnector :=
  fun _ => ⟨[s0], [s1, s2], []⟩

theorem leap_weight_build_car_only_and_lookup_witness :
    lookup2
      (fillWeightsTable wave0 (connectors0 VehicleType.Car).enters
        (connectors0 VehicleType.Car).exits) s0 s1 = some 5 ∧
    buildCrossMwmSectionFill wave0 connectors0 VehicleType.Pedestrian =
      connectors0 VehicleType.Pedestrian :=
  ⟨(leap_weight_build_car_only_and_lookup wave0 connectors0 s0 s1 5).1.mpr
      ⟨by decide, by decide, by decide⟩,
   (leap_weight_build_car_only_and_lookup wave0 connectors0 s0 s1 5).2.2.2
      VehicleType.Pedestrian (by decide)⟩

/-! ## Error handling of the build entry points -/

/-- `RootException`-derived errors thrown by collaborators (feature reader,
archive writer, serialiser); carried as the `what()` message. -/
abbrev RootException := String

/-- The body of `BuildRoutingIndex` inside the `try` block: feature processing
(which may throw), in-memory graph building, then serialisation of the graph
and the mask table into the routing section (which may throw); the returned
number models the section size. -/
def buildRoutingIndexBody (processed : Except RootException Processor)
    (serialize : IndexGraph → List (Nat × VehicleMask) → Except RootException Nat) :
    Except RootException Nat :=
  match processed with
  | Except.error e => Except.error e
  | Except.ok processor =>
    let graph := processor.buildGraph ⟨[]⟩
    serialize graph processor.masks

/-- `BuildRoutingIndex` (routing_index_generator.cpp): the whole body runs
under a single top-level catch; an exception is logged and becomes `false`,
otherwise the function returns `true`. -/
def BuildRoutingIndex (processed : Except RootException Processor)
    (serialize : IndexGraph → List (Nat × VehicleMask) → Except RootException Nat) : Bool :=
  match buildRoutingIndexBody processed serialize with
  | Except.ok _ => true
  | Except.error _ => false

/-- C8: `BuildRoutingIndex` returns `true` iff its body raised no exception;
an exception in feature processing or in serialisation yields `false`, and a
clean run yields `true`. -/
theorem buildRoutingIndex_top_level_catch (processed : Except RootException Processor)
    (serialize : IndexGraph → List (Nat × VehicleMask) → Except RootException Nat) :
    (BuildRoutingIndex processed serialize = true ↔
      ∃ n, buildRoutingIndexBody processed serialize = Except.ok n) ∧
    (∀ e, processed = Except.error e → BuildRoutingIndex processed serialize = false) ∧
    (∀ st e, processed = Except.ok st →
      serialize (st.buildGraph ⟨[]⟩) st.masks = Except.error e →
      BuildRoutingIndex processed serialize = false) ∧
    (∀ st n, processed = Except.ok st →
      serialize (st.buildGraph ⟨[]⟩) st.masks = Except.ok n →
      BuildRoutingIndex processed serialize = true) := by
  refine ⟨?_, ?_, ?_, ?_⟩
  · unfold BuildRoutingIndex
    cases hb : buildRoutingIndexBody processed serialize with
    | ok n => simpa using ⟨n, rfl⟩
    | error e => simp
  · intro e he
    subst he
    simp [BuildRoutingIndex, buildRoutingIndexBody]
  · intro st e hp hs
    subst hp
    simp [BuildRoutingIndex, buildRoutingIndexBody, hs]
  · intro st n hp hs
    subst hp
    simp [BuildRoutingIndex, buildRoutingIndexBody, hs]

/-- A serialisation step that always succeeds, writing 16 bytes. -/
def serializeOk : IndexGraph → List (Nat × VehicleMask) → Except RootException Nat :=
  fun _ _ => Except.ok 16

/-- A serialisation step that always throws. -/
def serializeFail : IndexGraph → List (Nat × VehicleMask) → Except RootException Nat :=
  fun _ _ => Except.error "writer failed"

theorem buildRoutingIndex_top_level_catch_witness :
    BuildRoutingIndex (Except.error "io error") serializeOk = false ∧
    BuildRoutingIndex (Except.ok Processor.initial) serializeFail = false ∧
    BuildRoutingIndex (Except.ok Processor.initial) serializeOk = true :=
  ⟨(buildRoutingIndex_top_level_catch (Except.error "io error") serializeOk).2.1
      "io error" rfl,
   (buildRoutingIndex_top_level_catch (Except.ok Processor.initial) serializeFail).2.2.1
      Processor.initial "writer failed" rfl rfl,
   (buildRoutingIndex_top_level_catch (Except.ok Processor.initial) serializeOk).2.2.2
      Processor.initial 16 rfl rfl⟩

/-! ## Construction-failure ordering (VehicleMaskBuilder CHECKs vs file I/O) -/

/-- Observable steps of the build pipelines that construct a
`VehicleMaskBuilder`. -/
inductive BuildEvent
  | ioLoadBorders
  | ioReadFeatures
  | ioWriteSection
  | modelsChecked
  | ctorFailure
deriving DecidableEq, Repr

/-- Which build events perform file I/O: `osm::LoadBorders` reads the
`.poly` file, `feature::ForEachFromDat` reads the mwm file, and the archive
writer commits a section. -/
def BuildEvent.isFileAccess : BuildEvent → Bool
  | ioLoadBorders => true
  | ioReadFeatures => true
  | ioWriteSection => true
  | _ => false

/-- The `VehicleMaskBuilder` constructor: `ped`, `bic`, `car` state whether
`GetVehicleModelForCountry` produced a model for each profile; the three
CHECKs fail (abort construction) when any model is missing. -/
def vehicleMaskBuilderEvents (ped bic car : Bool) : List BuildEvent :=
  if ped && bic && car then [BuildEvent.modelsChecked] else [BuildEvent.ctorFailure]

/-- Event trace of `CalcCrossMwmTransitions` (routing_index_generator.cpp):
`osm::LoadBorders` runs first, then `VehicleMaskBuilder const maskMaker(country)`
is constructed, then `feature::ForEachFromDat` reads the feature file. -/
def calcCrossMwmTransitionsEvents (ped bic car : Bool) : List BuildEvent :=
  BuildEvent.ioLoadBorders ::
    (vehicleMaskBuilderEvents ped bic car ++
      if ped && bic && car then [BuildEvent.ioReadFeatures] else [])

/-- Event trace of `BuildRoutingIndex`: the `Processor` constructor builds the
`VehicleMaskBuilder` first; feature reading and section writing happen only
afterwards. -/
def buildRoutingIndexEvents (ped bic car : Bool) : List BuildEvent :=
  vehicleMaskBuilderEvents ped bic car ++
    if ped && bic && car then [BuildEvent.ioReadFeatures, BuildEvent.ioWriteSection]
    else []

/-- C9 counterexample: with the car model missing, the cross-MWM transition
scan fails in the `VehicleMaskBuilder` constructor, but a file read (the
border polygon load) has already happened before the failure — refuting
"this failure occurs before any file I/O is performed by the build pipeline
that constructs it". -/
theorem missing_model_fails_after_border_io_counterexample :
    BuildEvent.ctorFailure ∈ calcCrossMwmTransitionsEvents true true false ∧
    ((calcCrossMwmTransitionsEvents true true false).takeWhile
        (fun e => !(e == BuildEvent.ctorFailure))).any BuildEvent.isFileAccess = true := by
  decide

/-- C9 amended: if any of the three vehicle models is unavailable,
construction of the vehicle-mask bridge fails in both pipelines, and no file
I/O follows the failure; in `BuildRoutingIndex` the failure precedes all file
I/O, but in `CalcCrossMwmTransitions` the border polygon file is loaded
before the builder is constructed, so there the failure occurs after that
read (though still before the feature file is read). -/
theorem missing_model_failure_ordering_amended (ped bic car : Bool)
    (h : ped = false ∨ bic = false ∨ car = false) :
    (BuildEvent.ctorFailure ∈ calcCrossMwmTransitionsEvents ped bic car ∧
     BuildEvent.ctorFailure ∈ buildRoutingIndexEvents ped bic car) ∧
    ((buildRoutingIndexEvents ped bic car).takeWhile
        (fun e => !(e == BuildEvent.ctorFailure))).all
      (fun e => !e.isFileAccess) = true ∧
    (calcCrossMwmTransitionsEvents ped bic car).head? = some BuildEvent.ioLoadBorders ∧
    BuildEvent.ioReadFeatures ∉ calcCrossMwmTransitionsEvents ped bic car ∧
    BuildEvent.ioReadFeatures ∉ buildRoutingIndexEvents ped bic car := by
  cases ped <;> cases bic <;> cases car <;>
    first
      | decide
      | (rcases h with h | h | h <;> exact absurd h (by decide))

theorem missing_model_failure_ordering_amended_witness :
    BuildEvent.ctorFailure ∈ calcCrossMwmTransitionsEvents true true false ∧
    BuildEvent.ctorFailure ∈ buildRoutingIndexEvents true true false :=
  (missing_model_failure_ordering_amended true true false (Or.inr (Or.inr rfl))).1

end OmimRouting
